import Mathlib

/-!
Shallow embedding of the debugger automation and output-parsing engine of
pydumpanalyzer (src/pydumpanalyzer/windbg.py), together with theorems that
settle the specification claims about it.

Python strings are embedded as `List Char` (`PyStr`); the Python string
operations used by the source (`split`, `splitlines`, `strip`, `startswith`,
`replace`, `in`, `int(...)`, `int(..., 16)`) are embedded as executable
functions below.  Fallible Python code (IndexError / ValueError / TypeError
propagation) is embedded with `Except String`.
-/

deriving instance DecidableEq for Except

namespace PyDump

/-- Python strings, embedded as lists of characters. -/
abbrev PyStr := List Char

/-- Coerce a Lean string literal into the embedding. -/
def pys (s : String) : PyStr := s.data

/-- Python whitespace (the characters `str.split()` / `str.strip()` and the
regex class backslash-s treat as whitespace, in the ASCII range used by the
transcripts). -/
def isPyWs (c : Char) : Bool :=
  c = ' ' || c = '\t' || c = '\n' || c = '\r' || c = '\x0b' || c = '\x0c'

/-- Boolean prefix test (embeds Python `str.startswith`). -/
def isPre : PyStr → PyStr → Bool
  | [], _ => true
  | _ :: _, [] => false
  | a :: as, b :: bs => a = b && isPre as bs

/-- Split at the first occurrence of `sep` (embeds Python
`s.split(sep, 1)`, which yields two pieces when `sep` occurs and signals
the absence of `sep` otherwise; `sep` is nonempty at every call site of the
source). -/
def splitFirst (sep : PyStr) : PyStr → Option (PyStr × PyStr)
  | [] => if isPre sep [] then some ([], []) else none
  | c :: rest =>
    if isPre sep (c :: rest) then some ([], (c :: rest).drop sep.length)
    else (splitFirst sep rest).map (fun p => (c :: p.1, p.2))

/-- Embeds Python `sep in s` for a substring `sep`. -/
def occursB (sep s : PyStr) : Bool := (splitFirst sep s).isSome

/-- Embeds Python `s.startswith(pre)`. -/
def pyStartsWith (pre s : PyStr) : Bool := isPre pre s

/-- Split on every occurrence of the character `c` (embeds Python
`s.split(c)` with no maxsplit, for a one-character separator). -/
def splitChar (c : Char) : PyStr → List PyStr
  | [] => [[]]
  | x :: rest =>
    if x = c then [] :: splitChar c rest
    else
      match splitChar c rest with
      | [] => [[x]]
      | h :: t => (x :: h) :: t

/-- Embeds Python `s.splitlines()` for the newline-delimited transcripts the
source deals with (a trailing newline produces no trailing empty line). -/
def pySplitlines (s : PyStr) : List PyStr :=
  match (splitChar '\n' s).reverse with
  | [] => []
  | last :: revInit => if last = [] then revInit.reverse else (last :: revInit).reverse

/-- Fuel-driven worker for `pyWhitespaceSplit`; the fuel is an upper bound
on the string length (structural recursion, so that concrete evaluation
reduces in the kernel). -/
def pyWsSplitAux : Nat → PyStr → List PyStr
  | _, [] => []
  | 0, _ :: _ => []
  | fuel + 1, c :: rest =>
    if isPyWs c then pyWsSplitAux fuel rest
    else
      (c :: rest.takeWhile (fun x => !(isPyWs x))) ::
        pyWsSplitAux fuel (rest.dropWhile (fun x => !(isPyWs x)))

/-- Embeds Python `s.split()` (split on whitespace runs, no empty fields). -/
def pyWhitespaceSplit (s : PyStr) : List PyStr := pyWsSplitAux s.length s

/-- Embeds Python `s.strip()`. -/
def pyStrip (s : PyStr) : PyStr :=
  ((s.dropWhile isPyWs).reverse.dropWhile isPyWs).reverse

/-- Decimal value of a digit string. -/
def digitsToNat (ds : PyStr) : Nat :=
  ds.foldl (fun acc c => acc * 10 + (c.toNat - 48)) 0

/-- Embeds Python `int(s)`: optional surrounding whitespace, optional sign,
then at least one decimal digit; anything else raises ValueError (`none`). -/
def pyInt (s : PyStr) : Option Int :=
  let t := pyStrip s
  let su : Int × PyStr :=
    match t with
    | '+' :: r => (1, r)
    | '-' :: r => (-1, r)
    | r => (1, r)
  if su.2 ≠ [] ∧ su.2.all Char.isDigit then some (su.1 * (digitsToNat su.2 : Int))
  else none

/-- Value of one hexadecimal digit, if any. -/
def hexDigitVal (c : Char) : Option Nat :=
  if c.isDigit then some (c.toNat - 48)
  else if 'a' ≤ c ∧ c ≤ 'f' then some (c.toNat - 87)
  else if 'A' ≤ c ∧ c ≤ 'F' then some (c.toNat - 55)
  else none

/-- Hexadecimal value of a hex-digit string. -/
def hexToNat (ds : PyStr) : Nat :=
  ds.foldl (fun acc c => acc * 16 + ((hexDigitVal c).getD 0)) 0

/-- Embeds Python `int(s, 16)`: optional whitespace, optional sign, optional
`0x`/`0X` prefix, then at least one hex digit. -/
def pyIntHex (s : PyStr) : Option Int :=
  let t := pyStrip s
  let su : Int × PyStr :=
    match t with
    | '+' :: r => (1, r)
    | '-' :: r => (-1, r)
    | r => (1, r)
  let u :=
    match su.2 with
    | '0' :: x :: r => if x = 'x' ∨ x = 'X' then r else su.2
    | _ => su.2
  if u ≠ [] ∧ u.all (fun c => (hexDigitVal c).isSome) then
    some (su.1 * (hexToNat u : Int))
  else none

/-- Embeds Python `c in s` for a single character. -/
def containsChar (c : Char) : PyStr → Bool
  | [] => false
  | x :: r => if x = c then true else containsChar c r

/-- Number of occurrences of a character. -/
def countChar (c : Char) : PyStr → Nat
  | [] => 0
  | x :: r => (if x = c then 1 else 0) + countChar c r

/-! ## Value types

Modelled from the spec: `variable.py`, `frame.py` and `stack.py` are not under
`src/`; spec §2 describes Variable, Frame and Stack as immutable-after-
construction records with "No behavior beyond construction and read access",
and §3 lists their fields.  They therefore store exactly the values the parser
passes to their constructors. -/

/-- A variable value: either a decoded integer (signed-decimal `0n` source
text) or the raw string (spec §3). -/
inductive PyVal where
  | int : Int → PyVal
  | str : PyStr → PyVal
deriving DecidableEq

/-- Modelled from the spec: one local variable (`variable.py` is not under
`src/`); fields per spec §3, stored as constructed. -/
structure Variable where
  type : PyStr
  name : PyStr
  value : PyVal
deriving DecidableEq

/-- Modelled from the spec: one stack frame (`frame.py` is not under `src/`);
fields per spec §3, stored as constructed by `getStackTrace`. -/
structure Frame where
  module : PyStr
  index : Nat
  function : Option PyStr
  sourceFile : Option PyStr
  line : Option PyStr
  «variables» : List Variable
  warningAboutCorrectness : Bool
deriving DecidableEq

/-- Modelled from the spec: a captured stack (`stack.py` is not under `src/`);
fields per spec §3, stored as constructed (`threadId` is whatever
`_getThreadId` returned, possibly absent). -/
structure Stack where
  frames : List Frame
  threadId : Option Int
deriving DecidableEq

/-! ## Transcript parsers (windbg.py lines 161-277) -/

/-- The notice line marker of windbg.py line 167. -/
def unwindNotice : PyStr := pys "Stack unwind information not available"

/-- Loop body of `WinDbg._getLineAndWarningForStackTrace` (windbg.py lines
163-178) over the already-split lines, threading the warning flag.  The empty
whitespace-split case is unreachable because the line was checked nonempty
after stripping; it is embedded as a skip. -/
def getLineAndWarningAux (index : Nat) (warning : Bool) :
    List PyStr → Option (PyStr × Bool)
  | [] => none
  | line :: rest =>
    if pyStrip line = [] then getLineAndWarningAux index warning rest
    else if occursB unwindNotice line then getLineAndWarningAux index true rest
    else
      match pyWhitespaceSplit line with
      | [] => getLineAndWarningAux index warning rest
      | firstThing :: _ =>
        match pyInt firstThing with
        | none => getLineAndWarningAux index warning rest
        | some n =>
          if n = (index : Int) then some (pyStrip line, warning)
          else getLineAndWarningAux index warning rest

/-- `WinDbg._getLineAndWarningForStackTrace(index, trace)` (windbg.py lines
161-178): scan the trace for the line whose leading numeric field equals
`index`, flagging the unwind notice; `none` when the Python function falls
off the loop and returns `None`. -/
def getLineAndWarning (index : Nat) (trace : PyStr) : Option (PyStr × Bool) :=
  getLineAndWarningAux index false (pySplitlines trace)

/-- Embeds `value.replace('0n', '')` of windbg.py line 213: remove every
(left-to-right, non-overlapping) occurrence of `0n`. -/
def remove0n : PyStr → PyStr
  | [] => []
  | [c] => [c]
  | c :: d :: rest =>
    if c = '0' ∧ d = 'n' then remove0n rest
    else c :: remove0n (d :: rest)

/-- The value coercion of windbg.py lines 209-213: a value starting with the
`0n` signed-decimal marker has every `0n` removed and the remainder parsed
with `int(...)` (ValueError propagates); any other value stays a raw string. -/
def parseVarValue (right : PyStr) : Except String PyVal :=
  if pyStartsWith (pys "0n") right then
    match pyInt (remove0n right) with
    | some n => .ok (.int n)
    | none => .error "ValueError"
  else .ok (.str right)

/-- Loop body of `WinDbg._getVariablesForFrame` (windbg.py lines 199-218)
over the split transcript lines: lines without `" = "` are skipped; otherwise
split once on `" = "`, the last whitespace token of the left side is the
name, the space-joined rest is the type, and the right side is coerced by
`parseVarValue`.  `left.split()[-1]` on an empty split raises IndexError. -/
def getVariablesAux : List PyStr → Except String (List Variable)
  | [] => .ok []
  | line :: rest =>
    match splitFirst (pys " = ") line with
    | none => getVariablesAux rest
    | some (left, right) =>
      match (pyWhitespaceSplit left).getLast? with
      | none => .error "IndexError"
      | some name =>
        let typ := List.intercalate (pys " ") (pyWhitespaceSplit left).dropLast
        match parseVarValue right with
        | .error e => .error e
        | .ok v =>
          match getVariablesAux rest with
          | .error e => .error e
          | .ok vs => .ok (⟨typ, name, v⟩ :: vs)

/-- `WinDbg._getVariablesForFrame` (windbg.py lines 180-218), as a function of
the sliced transcript produced by the `.frame N; dv /t *` invocation. -/
def getVariablesForFrame (rawOutput : PyStr) : Except String (List Variable) :=
  getVariablesAux (pySplitlines rawOutput)

/-- The per-line extraction of `WinDbg._getThreadId` (windbg.py line 234):
`int(line.split('Id', 1)[1].split('.', 1)[1].split()[0], 16)`, with the
IndexError / ValueError of the subscripts and of `int(..., 16)` made
explicit.  Only called on lines containing `Id`. -/
def extractThreadId (line : PyStr) : Except String Int :=
  match splitFirst (pys "Id") line with
  | none => .error "IndexError"
  | some (_, rest1) =>
    match splitFirst (pys ".") rest1 with
    | none => .error "IndexError"
    | some (_, rest2) =>
      match pyWhitespaceSplit rest2 with
      | [] => .error "IndexError"
      | tok :: _ =>
        match pyIntHex tok with
        | some n => .ok n
        | none => .error "ValueError"

/-- Line scan of `WinDbg._getThreadId` (windbg.py lines 232-234): the first
line containing `Id` is parsed; no such line means Python returns `None`. -/
def getThreadIdAux : List PyStr → Except String (Option Int)
  | [] => .ok none
  | line :: rest =>
    if occursB (pys "Id") line then (extractThreadId line).map some
    else getThreadIdAux rest

/-- `WinDbg._getThreadId` (windbg.py lines 220-234) as a function of the
sliced transcript of the `~.` invocation. -/
def getThreadId (rawOutput : PyStr) : Except String (Option Int) :=
  getThreadIdAux (pySplitlines rawOutput)

/-! ## The file/line regex (windbg.py line 18)

`REGEX_FILE_AND_LINE_FROM_FRAME = re.compile(r'\[(.*)@\s*(\d+)')`, used via
`re.findall(...)[0]` in `getStackTrace` (windbg.py line 257).  The matcher
below implements exactly this pattern's first (leftmost) match: scan for `[`;
the greedy dot-star tries the longest newline-free stretch first, then
backtracks to earlier `@` signs; after `@`, a greedy whitespace run, then at
least one digit (the second capture group, greedy). -/

/-- All splittings `t = g1 ++ rest` where `g1` contains no newline (the
candidates for the greedy `(.*)` group), in order of increasing `g1`. -/
def dotSplits : PyStr → List (PyStr × PyStr)
  | [] => [([], [])]
  | c :: cs =>
    ([], c :: cs) ::
      (if c = '\n' then [] else (dotSplits cs).map (fun p => (c :: p.1, p.2)))

/-- Continue one candidate past the `@`: greedy whitespace, then a nonempty
greedy digit run. -/
def tryAtSign (p : PyStr × PyStr) : Option (PyStr × PyStr) :=
  match p.2 with
  | '@' :: r =>
    let ds := (r.dropWhile isPyWs).takeWhile Char.isDigit
    if ds = [] then none else some (p.1, ds)
  | _ => none

/-- First success of `f` over a list (backtracking order). -/
def firstSome (f : PyStr × PyStr → Option (PyStr × PyStr)) :
    List (PyStr × PyStr) → Option (PyStr × PyStr)
  | [] => none
  | x :: xs =>
    match f x with
    | some y => some y
    | none => firstSome f xs

/-- The two capture groups of the first match of
`REGEX_FILE_AND_LINE_FROM_FRAME` in `s`, if any. -/
def matchFileLine : PyStr → Option (PyStr × PyStr)
  | [] => none
  | '[' :: t =>
    match firstSome tryAtSign (dotSplits t).reverse with
    | some r => some r
    | none => matchFileLine t
  | _ :: t => matchFileLine t

/-! ## Stack assembly (windbg.py lines 236-271) -/

/-- windbg.py line 17. -/
def MAX_STACK_DEPTH : Nat := 100

/-- The transcripts the four `_callWinDbg` invocations of `getStackTrace`
produce: the compact (`kcn`) trace, the extended (`kpn`) trace, the per-frame
`.frame N; dv /t *` variable dumps, and the `~.` thread status output. -/
structure Transcripts where
  clean : PyStr
  extended : PyStr
  frameVars : Nat → PyStr
  thread : PyStr

/-- The `module!function` destructuring of windbg.py lines 248-253:
`moduleAndFunction.split('!')` must produce exactly two pieces when `!` is
present (three or more raise ValueError); otherwise the whole token is the
module and the function is absent. -/
def parseModuleFunction (mf : PyStr) : Except String (PyStr × Option PyStr) :=
  if containsChar '!' mf then
    match splitChar '!' mf with
    | [m, f] => .ok (m, some f)
    | _ => .error "ValueError"
  else .ok (mf, none)

/-- The frame loop of `getStackTrace` (windbg.py lines 242-268), with `fuel`
counting the remaining indices of `range(MAX_STACK_DEPTH)`.  A missing
compact-trace line breaks the loop; a missing second token raises IndexError;
a missing extended-trace line makes the tuple unpacking of line 256 raise a
TypeError; the warning flag kept in the Frame is the one of the extended
scan, which overwrites the compact one (line 256). -/
def buildFrames (t : Transcripts) (idx fuel : Nat) : Except String (List Frame) :=
  match fuel with
  | 0 => .ok []
  | fuel' + 1 =>
    match getLineAndWarning idx t.clean with
    | none => .ok []
    | some (stackLine, _warnClean) =>
      match (pyWhitespaceSplit stackLine).get? 1 with
      | none => .error "IndexError"
      | some mf =>
        match parseModuleFunction mf with
        | .error e => .error e
        | .ok (m, fn) =>
          match getLineAndWarning idx t.extended with
          | none => .error "TypeError"
          | some (extLine, warning) =>
            let sfl : Option PyStr × Option PyStr :=
              match matchFileLine extLine with
              | some (sf, ln) => (some sf, some ln)
              | none => (none, none)
            match getVariablesForFrame (t.frameVars idx) with
            | .error e => .error e
            | .ok vars =>
              match buildFrames t (idx + 1) fuel' with
              | .error e => .error e
              | .ok rest => .ok (⟨m, idx, fn, sfl.1, sfl.2, vars, warning⟩ :: rest)

/-- `WinDbg.getStackTrace` (windbg.py lines 236-271) as a function of the
transcripts of its four debugger invocations. -/
def getStackTrace (t : Transcripts) : Except String Stack :=
  match buildFrames t 0 MAX_STACK_DEPTH with
  | .error e => .error e
  | .ok frames =>
    match getThreadId t.thread with
    | .error e => .error e
    | .ok tid => .ok ⟨frames, tid⟩

/-! ## Command channel and output demarcation (windbg.py lines 50-153) -/

def qCmd : PyStr := pys "q"
def ecxrCmd : PyStr := pys ".ecxr"
def symoptCmd : PyStr := pys ".symopt+0x10"

/-- `'.echo == Start Calling %s ==' % dc` (windbg.py line 69). -/
def echoStartCmd (dc : PyStr) : PyStr := pys ".echo == Start Calling " ++ dc ++ pys " =="

/-- `'.echo == End Calling %s ==' % dc` (windbg.py line 82). -/
def echoEndCmd (dc : PyStr) : PyStr := pys ".echo == End Calling " ++ dc ++ pys " =="

/-- `finalCommandList[-1].split('.echo ', 1)[1]` (windbg.py lines 76 and 85);
the argument always begins with `.echo `, so the split always succeeds. -/
def afterEcho (s : PyStr) : PyStr :=
  match splitFirst (pys ".echo ") s with
  | some p => p.2
  | none => []

/-- The header/footer wrapping loop of windbg.py lines 66-87: every command
is preceded by a start announcement and (except `q`) followed by an end
announcement; the header is the first announcement not belonging to the two
auto-injected setup commands, the footer is the announcement of the last
non-`q` command. -/
def wrapEcho (gotoCtx : Bool) :
    List PyStr → Option PyStr → Option PyStr →
      List PyStr × Option PyStr × Option PyStr
  | [], h, f => ([], h, f)
  | dc :: rest, h, f =>
    let st := echoStartCmd dc
    let h2 :=
      if h = none ∧ ¬(gotoCtx ∧ dc = ecxrCmd) ∧ dc ≠ symoptCmd then
        some (afterEcho st)
      else h
    if dc = qCmd then
      let r := wrapEcho gotoCtx rest h2 f
      (st :: dc :: r.1, r.2)
    else
      let en := echoEndCmd dc
      let r := wrapEcho gotoCtx rest h2 (some (afterEcho en))
      (st :: dc :: en :: r.1, r.2)

/-- Command-list assembly of `_callWinDbg` (windbg.py lines 54-87): append
`q` when the session should exit, prepend `.ecxr` unless suppressed, always
prepend `.symopt+0x10`, then (when requested) wrap with echo announcements,
remembering header and footer markers. -/
def buildCommandList (cs : List PyStr) (gotoCtx hdrFtr exitAfter : Bool) :
    List PyStr × Option PyStr × Option PyStr :=
  let l1 := if exitAfter then cs ++ [qCmd] else cs
  let l2 := if gotoCtx then ecxrCmd :: l1 else l1
  let l3 := symoptCmd :: l2
  if hdrFtr then wrapEcho gotoCtx l3 none none else (l3, none, none)

/-- `';'.join(debugCommandsList)` (windbg.py line 98). -/
def joinSemis (l : List PyStr) : PyStr := List.intercalate (pys ";") l

/-- `cmdsWithSemiColons` for a caller command list and flags: the joined
invocation string passed to the external tool (windbg.py line 98). -/
def invocationString (cs : List PyStr) (gotoCtx hdrFtr exitAfter : Bool) : PyStr :=
  joinSemis (buildCommandList cs gotoCtx hdrFtr exitAfter).1

/-- The transcript demarcation of windbg.py lines 146-151.  Slicing happens
only when requested and both markers were established as nonempty strings
(Python truthiness of `outputHeader and outputFooter`); then
`split(cmdsWithSemiColons, 1)[1]` and `split(outputHeader, 1)[1]` raise
IndexError when the text is absent, while `split(outputFooter, 1)[0]` falls
back to the whole remaining text; the slice is re-wrapped with the markers
and newlines (line 151). -/
def sliceOutput (getJust : Bool) (hdr ftr : Option PyStr) (cmds full : PyStr) :
    Except String PyStr :=
  match getJust, hdr, ftr with
  | true, some h, some f =>
    if h ≠ [] ∧ f ≠ [] then
      match splitFirst cmds full with
      | none => .error "IndexError"
      | some (_, r1) =>
        match splitFirst h r1 with
        | none => .error "IndexError"
        | some (_, r2) =>
          let between :=
            match splitFirst f r2 with
            | some (b, _) => b
            | none => r2
          .ok (h ++ '\n' :: (between ++ '\n' :: f))
    else .ok full
  | _, _, _ => .ok full

/-! ## Process supervision (windbg.py lines 113-134)

The polling loop `while deathTime > time.time()` is embedded by discretizing
wall-clock time into poll slots: `rcAt j` is the return code the `j`-th call
of `process.poll()` observes (`none` while the process is still running) and
`fuel` is the number of loop iterations the deadline allows.  Exhausting the
fuel is the `while`-`else` branch: the process is terminated and
`RuntimeError` is raised. -/

/-- The polling loop: the first observed return code, or `none` when the
deadline elapses first. -/
def pollLoop (rcAt : Nat → Option Int) : Nat → Nat → Option Int
  | _, 0 => none
  | k, n + 1 =>
    match rcAt k with
    | some rc => some rc
    | none => pollLoop rcAt (k + 1) n

/-- The remainder of the supervision (windbg.py lines 123-134): a timed-out
poll raises `RuntimeError` before any output is read; otherwise the captured
log is read (absence tolerated as empty) and a nonzero exit raises
`CalledProcessError`. -/
def runProcess (pollResult : Option Int) (captured : Option PyStr) :
    Except String PyStr :=
  match pollResult with
  | none => .error "RuntimeError: Timed out"
  | some rc => if rc ≠ 0 then .error "CalledProcessError" else .ok (captured.getD [])

/-! ## Sample transcripts (spec §8 property 3; docstrings of windbg.py) -/

/-- Compact (`kcn`) transcript of the sample, containing exactly the
compact-trace line the claim prescribes. -/
def c1clean : PyStr :=
  pys "== Start Calling kcn ==\n00 010ffc14 00889ad9 TheCrasher!main+0x1b\n== End Calling kcn =="

/-- Extended (`kpn`) transcript of the sample, containing the prescribed
bracketed file/line suffix. -/
def c1ext : PyStr :=
  pys "== Start Calling kpn ==\n00 010ffc14 00889ad9 TheCrasher!main+0x1b [c:\\users\\...\\source.cpp @ 43]\n== End Calling kpn =="

/-- Variable-dump transcript of the sample (docstring of windbg.py lines
186-197), containing the three prescribed variable lines. -/
def c1vars : PyStr :=
  pys "== Start Calling .frame 0 ==\n\n00 010ffc14 00889ad9 TheCrasher!main+0x1b [c:\\users\\...\\source.cpp @ 43]\n== End Calling .frame 0 ==\n== Start Calling dv /t * ==\nint argc = 0n1\nchar ** argv = 0x032053f0\nchar * p = 0x00000000 \"\"\n\n== End Calling dv /t * =="

/-- Thread-status transcript of the sample (docstring of windbg.py lines
224-231). -/
def c1thread : PyStr :=
  pys "== Start Calling ~. ==\n\n.  0  Id: 97cc.e00 Suspend: 0 Teb: 00f81000 Unfrozen\n    Priority: 0  Priority class: 32\n\n== End Calling ~. =="

/-- The sample transcript bundle with the compact line the claim prescribes. -/
def c1T : Transcripts := ⟨c1clean, c1ext, fun _ => c1vars, c1thread⟩

/-- The three variables the sample dump parses to. -/
def c1Variables : List Variable :=
  [⟨pys "int", pys "argc", .int 1⟩,
   ⟨pys "char **", pys "argv", .str (pys "0x032053f0")⟩,
   ⟨pys "char *", pys "p", .str (pys "0x00000000 \"\"")⟩]

/-- The frame the code actually assembles from `c1T`: the second whitespace
token of the four-column compact line is the `010ffc14` address, so it
becomes the module and no function is found; the regex group keeps the space
before the `@`; the line number stays the string `43`. -/
def c1ActualFrame : Frame :=
  ⟨pys "010ffc14", 0, none, some (pys "c:\\users\\...\\source.cpp "),
    some (pys "43"), c1Variables, false⟩

/-- The stack the code actually returns for `c1T`. -/
def c1ActualStack : Stack := ⟨[c1ActualFrame], some 3584⟩

/-- The same sample with a two-column `kcn`-style compact line, whose second
token is the `module!function` descriptor. -/
def c1KcnT : Transcripts :=
  ⟨pys "== Start Calling kcn ==\n00 TheCrasher!main+0x1b\n== End Calling kcn ==",
    c1ext, fun _ => c1vars, c1thread⟩

/-- The stack the code returns for `c1KcnT`. -/
def c1KcnStack : Stack :=
  ⟨[⟨pys "TheCrasher", 0, some (pys "main+0x1b"),
      some (pys "c:\\users\\...\\source.cpp "), some (pys "43"),
      c1Variables, false⟩], some 3584⟩

/-- Modelled from the spec, for refinement comparison only (C6): the claimed
coercion — a value beginning with the `0n` marker has exactly that prefix
stripped and the remainder parsed as an integer. -/
def specParseVarValue (right : PyStr) : Except String PyVal :=
  if pyStartsWith (pys "0n") right then
    match pyInt (right.drop 2) with
    | some n => .ok (.int n)
    | none => .error "ValueError"
  else .ok (.str right)

/-- Transcripts where the compact trace carries the unwind notice before the
frame-0 line but the extended trace does not. -/
def c8T : Transcripts :=
  ⟨pys "Stack unwind information not available\n00 mod!fn",
    pys "00 mod!fn", fun _ => [], []⟩

/-- The stack the code returns for `c8T`. -/
def c8Stack : Stack :=
  ⟨[⟨pys "mod", 0, some (pys "fn"), none, none, [], false⟩], none⟩

/-- The warning flag a `_getLineAndWarningForStackTrace` scan reports (false
when the scan found no line at all). -/
def warningOfScan (o : Option (PyStr × Bool)) : Bool :=
  match o with
  | some p => p.2
  | none => false

/-- Transcripts with a single one-frame compact and extended trace, used to
witness the stack invariants at a concrete input. -/
def c5T : Transcripts := ⟨pys "00 aaa!bbb", pys "00 aaa!bbb", fun _ => [], []⟩

/-- The stack `getStackTrace` returns on `c5T`. -/
def c5Stack : Stack := ⟨[⟨pys "aaa", 0, some (pys "bbb"), none, none, [], false⟩], none⟩

/-- Transcripts whose compact-trace line has a doubly-`!`-separated second
token. -/
def c10T : Transcripts :=
  ⟨pys "00 module!namespace!function", pys "00 module!namespace!function",
    fun _ => [], []⟩

/-- Thread-status transcript of the `~.` docstring (windbg.py lines
224-231). -/
def c9Thread : PyStr :=
  pys "== Start Calling ~. ==\n\n.  0  Id: 97cc.e00 Suspend: 0 Teb: 00f81000 Unfrozen\n    Priority: 0  Priority class: 32\n\n== End Calling ~. =="

/-- C1, counterexample: on the claim's own sample transcript the assembled
frame has module `010ffc14` (the ChildEBP address column) and no function —
not module `TheCrasher` with function `main+0x1b` — and its source file keeps
the trailing space before the `@` of the bracketed suffix, so it differs from
the claimed `c:\users\...\source.cpp`; the line field is the string `43`. -/
theorem c1_counterexample :
    getStackTrace c1T = .ok c1ActualStack ∧
    c1ActualStack.frames.map Frame.module ≠ [pys "TheCrasher"] ∧
    c1ActualStack.frames.map Frame.function ≠ [some (pys "main+0x1b")] ∧
    c1ActualStack.frames.map Frame.sourceFile ≠
      [some (pys "c:\\users\\...\\source.cpp")] := by
  refine ⟨by decide, by decide, by decide, by decide⟩

/-- C1, amended: on the sample transcript with the prescribed four-column
compact line, `getStackTrace` yields exactly one frame with module
`010ffc14`, no function, sourceFile `c:\users\...\source.cpp ` (trailing
space kept by the regex group), line the string `43`, no warning, and the
three claimed variables in order, with thread id 0xE00; when the compact
line has the two-column `kcn` shape `00 TheCrasher!main+0x1b`, the module is
`TheCrasher` and the function `main+0x1b` as the claim expected. -/
theorem c1_getStackTrace_sample :
    getStackTrace c1T = .ok c1ActualStack ∧
    getStackTrace c1KcnT = .ok c1KcnStack := by
  refine ⟨by decide, by decide⟩

/-- C2, counterexample: with both markers established but a transcript that
does not contain them, the demarcation step raises IndexError (from
`split(...)[1]`) instead of returning the unsliced transcript as-is. -/
theorem c2_counterexample :
    sliceOutput true (some (pys "== Start Calling kcn =="))
        (some (pys "== End Calling kcn ==")) (pys ".symopt+0x10;.ecxr;kcn;q")
        (pys "transcript without the markers") = .error "IndexError" ∧
    (Except.error "IndexError" : Except String PyStr) ≠
      .ok (pys "transcript without the markers") := by
  refine ⟨by decide, by decide⟩

/-- C6, counterexample: the source coerces with `value.replace('0n', '')`,
which removes every occurrence of `0n`, not just the prefix: on the value
`0n10n1` the code yields the integer 11, while stripping exactly the prefix
leaves `10n1`, which is not parseable as an integer. -/
theorem c6_counterexample :
    parseVarValue (pys "0n10n1") = .ok (.int 11) ∧
    specParseVarValue (pys "0n10n1") = .error "ValueError" ∧
    parseVarValue (pys "0n10n1") ≠ specParseVarValue (pys "0n10n1") := by
  refine ⟨by decide, by decide, by decide⟩

theorem remove0n_eq_self (ds : PyStr) (h : ∀ c ∈ ds, c ≠ 'n') : remove0n ds = ds := by
  match ds with
  | [] => rfl
  | [c] => rfl
  | c :: d :: rest =>
    have hd : d ≠ 'n' := h d (by simp)
    have hcd : ¬(c = '0' ∧ d = 'n') := fun hc => hd hc.2
    have ih := remove0n_eq_self (d :: rest) fun x hx => h x (List.mem_cons_of_mem _ hx)
    simp only [remove0n, if_neg hcd, ih]

/-- C6, amended: a variable value not beginning with the `0n` marker is kept
as the original string, unmodified; a value beginning with `0n` has every
occurrence of `0n` removed (`value.replace('0n', '')`) and the result parsed
with `int(...)` — which agrees with stripping exactly the prefix whenever the
remainder is a plain digit string; this is the only numeric coercion. -/
theorem c6_value_coercion (v ds : PyStr) :
    (pyStartsWith (pys "0n") v = false → parseVarValue v = .ok (.str v)) ∧
    (parseVarValue ('0' :: 'n' :: ds) =
      match pyInt (remove0n ds) with
      | some n => .ok (.int n)
      | none => .error "ValueError") ∧
    (ds.all Char.isDigit = true →
      parseVarValue ('0' :: 'n' :: ds) =
        match pyInt ds with
        | some n => .ok (.int n)
        | none => .error "ValueError") := by
  refine ⟨fun h => by simp [parseVarValue, h], ?_, ?_⟩
  · show parseVarValue ('0' :: 'n' :: ds) = _
    have hpre : pyStartsWith (pys "0n") ('0' :: 'n' :: ds) = true := by
      simp [pyStartsWith, pys, isPre]
    have h0 : remove0n ('0' :: 'n' :: ds) = remove0n ds := by
      cases ds <;> simp [remove0n]
    simp only [parseVarValue, hpre, if_true, h0]
  · intro h
    have hn : ∀ c ∈ ds, c ≠ 'n' := by
      intro c hc hcn
      subst hcn
      have hdig : Char.isDigit 'n' = true := List.all_eq_true.mp h 'n' hc
      exact absurd hdig (by decide)
    have h0 : remove0n ('0' :: 'n' :: ds) = ds := by
      have h1 : remove0n ('0' :: 'n' :: ds) = remove0n ds := by
        cases ds <;> simp [remove0n]
      rw [h1, remove0n_eq_self ds hn]
    have hpre : pyStartsWith (pys "0n") ('0' :: 'n' :: ds) = true := by
      simp [pyStartsWith, pys, isPre]
    simp only [parseVarValue, hpre, if_true, h0]

/-- C6, witness for the amended theorem at concrete values: `0x10` is not
`0n`-prefixed and is kept verbatim; `0n42` decodes to the integer 42. -/
theorem c6_value_coercion_witness :
    parseVarValue (pys "0x10") = .ok (.str (pys "0x10")) ∧
    parseVarValue (pys "0n42") = .ok (.int 42) := by
  constructor
  · exact (c6_value_coercion (pys "0x10") []).1 (by decide)
  · exact (c6_value_coercion [] (pys "42")).2.2 (by decide)

/-- C2, amended: the unsliced transcript is returned as-is exactly when
slicing is off or a marker was never established (or established empty);
when both markers are established, a transcript missing the echoed command
line or the header marker makes the step raise IndexError, while a missing
footer marker yields everything after the header, re-wrapped with both
markers. -/
theorem c2_slicing_cases (h f c full a r1 b r2 : PyStr) :
    (sliceOutput false (some h) (some f) c full = .ok full) ∧
    (sliceOutput true none (some f) c full = .ok full) ∧
    (sliceOutput true (some h) none c full = .ok full) ∧
    (sliceOutput true (some []) (some f) c full = .ok full) ∧
    (sliceOutput true (some h) (some []) c full = .ok full) ∧
    (h ≠ [] → f ≠ [] → splitFirst c full = none →
      sliceOutput true (some h) (some f) c full = .error "IndexError") ∧
    (h ≠ [] → f ≠ [] → splitFirst c full = some (a, r1) → splitFirst h r1 = none →
      sliceOutput true (some h) (some f) c full = .error "IndexError") ∧
    (h ≠ [] → f ≠ [] → splitFirst c full = some (a, r1) →
      splitFirst h r1 = some (b, r2) → splitFirst f r2 = none →
      sliceOutput true (some h) (some f) c full =
        .ok (h ++ '\n' :: (r2 ++ '\n' :: f))) := by
  refine ⟨rfl, rfl, rfl, by simp [sliceOutput], by simp [sliceOutput], ?_, ?_, ?_⟩
  · intro hh hf hc
    simp [sliceOutput, hh, hf, hc]
  · intro hh hf hc hhr
    simp [sliceOutput, hh, hf, hc, hhr]
  · intro hh hf hc hhr hfr
    simp [sliceOutput, hh, hf, hc, hhr, hfr]

/-- C2, witness for the amended theorem at concrete inputs: with both
markers present but no footer in the transcript, everything after the header
is returned wrapped in the markers; with slicing off the transcript is
unchanged. -/
theorem c2_slicing_cases_witness :
    sliceOutput true (some (pys "HH")) (some (pys "FF")) (pys "CC")
        (pys "xxCCyyHHzz") =
      .ok (pys "HH" ++ '\n' :: (pys "zz" ++ '\n' :: pys "FF")) ∧
    sliceOutput false (some (pys "HH")) (some (pys "FF")) (pys "CC")
        (pys "xxCCyyHHzz") = .ok (pys "xxCCyyHHzz") := by
  constructor
  · exact (c2_slicing_cases (pys "HH") (pys "FF") (pys "CC") (pys "xxCCyyHHzz")
      (pys "xx") (pys "yyHHzz") (pys "yy") (pys "zz")).2.2.2.2.2.2.2
      (by decide) (by decide) (by decide) (by decide) (by decide)
  · exact (c2_slicing_cases (pys "HH") (pys "FF") (pys "CC") (pys "xxCCyyHHzz")
      [] [] [] []).1

theorem isPre_append_self (p b : PyStr) : isPre p (p ++ b) = true := by
  induction p with
  | nil => rfl
  | cons c cs ih => simp [isPre, ih]

theorem occursB_of_isPre (p s : PyStr) (h : isPre p s = true) : occursB p s = true := by
  unfold occursB
  cases s with
  | nil => simp [splitFirst, h]
  | cons c rest => simp [splitFirst, h]

theorem occursB_cons_of (p : PyStr) (x : Char) (v : PyStr)
    (hv : occursB p v = true) : occursB p (x :: v) = true := by
  unfold occursB at *
  cases hsp : splitFirst p v with
  | none => rw [hsp] at hv; simp at hv
  | some pr =>
    cases hip : isPre p (x :: v) with
    | true => simp [splitFirst, hip]
    | false => simp [splitFirst, hip, hsp]

theorem isPre_append_left (p : PyStr) :
    ∀ (u b : PyStr), p.length ≤ u.length → isPre p (u ++ b) = true →
      isPre p u = true := by
  induction p with
  | nil => intro u b _ _; rfl
  | cons c cs ih =>
    intro u b hlen h
    cases u with
    | nil => simp at hlen
    | cons y ys =>
      simp only [List.cons_append] at h
      simp only [isPre, Bool.and_eq_true, decide_eq_true_eq] at h ⊢
      exact ⟨h.1, ih ys b (by simpa using hlen) h.2⟩

theorem dropLast_cons_ne (x : Char) (l : PyStr) (h : l ≠ []) :
    (x :: l).dropLast = x :: l.dropLast := by
  cases l with
  | nil => exact absurd rfl h
  | cons y ys => rfl

theorem isPre_head_false (p : PyStr) (x : Char) (a' b : PyStr)
    (h : occursB p (((x :: a') ++ p).dropLast) = false) :
    isPre p ((x :: a') ++ (p ++ b)) = false := by
  cases hip : isPre p ((x :: a') ++ (p ++ b)) with
  | false => rfl
  | true =>
    exfalso
    have hu : (x :: a') ++ p ≠ [] := by simp
    have hlast := List.dropLast_append_getLast hu
    have hshape : (x :: a') ++ (p ++ b) =
        ((x :: a') ++ p).dropLast ++
          ([((x :: a') ++ p).getLast hu] ++ b) := by
      conv_lhs => rw [← List.append_assoc, ← hlast]
      rw [List.append_assoc]
    rw [hshape] at hip
    have hlen : p.length ≤ ((x :: a') ++ p).dropLast.length := by
      rw [List.length_dropLast, List.length_append, List.length_cons]
      omega
    have hpre := isPre_append_left p _ _ hlen hip
    have := occursB_of_isPre p _ hpre
    rw [this] at h
    simp at h

theorem splitFirst_append (p : PyStr) (hp : p ≠ []) :
    ∀ (a b : PyStr), occursB p ((a ++ p).dropLast) = false →
      splitFirst p (a ++ (p ++ b)) = some (a, b) := by
  intro a
  induction a with
  | nil =>
    intro b _
    cases p with
    | nil => exact absurd rfl hp
    | cons q qs =>
      show splitFirst (q :: qs) ((q :: qs) ++ b) = some ([], b)
      have hpre : isPre (q :: qs) ((q :: qs) ++ b) = true := isPre_append_self _ _
      rw [show (q :: qs) ++ b = q :: (qs ++ b) from rfl] at hpre ⊢
      simp only [splitFirst, hpre, if_true]
      rw [show (q :: (qs ++ b)).drop (q :: qs).length =
        ((q :: qs) ++ b).drop (q :: qs).length from rfl, List.drop_left]
  | cons x a' ih =>
    intro b h
    have hne : a' ++ p ≠ [] := by
      intro hcon
      exact hp (List.append_eq_nil.mp hcon).2
    have hfalse := isPre_head_false p x a' b h
    have hdl : ((x :: a') ++ p).dropLast = x :: (a' ++ p).dropLast :=
      dropLast_cons_ne x (a' ++ p) hne
    rw [hdl] at h
    have h' : occursB p ((a' ++ p).dropLast) = false := by
      cases hq : occursB p ((a' ++ p).dropLast) with
      | false => rfl
      | true => rw [occursB_cons_of p x _ hq] at h; simp at h
    rw [show (x :: a') ++ (p ++ b) = x :: (a' ++ (p ++ b)) from rfl] at hfalse ⊢
    simp only [splitFirst, hfalse, Bool.false_eq_true, if_false, ih b h']
    rfl

/-- C3: for every transcript of the shape
`pre ++ cmds ++ mid ++ header ++ between ++ footer ++ post` in which the
joined command echo, the header marker and the footer marker first occur at
their designated places, the demarcation step returns exactly the text
between the two markers with the markers restored (joined by newlines) at
the boundaries — whatever the unrelated text before and after. -/
theorem c3_demarcation (pre c mid h between f post : PyStr)
    (hc : c ≠ []) (hh : h ≠ []) (hf : f ≠ [])
    (h1 : occursB c ((pre ++ c).dropLast) = false)
    (h2 : occursB h ((mid ++ h).dropLast) = false)
    (h3 : occursB f ((between ++ f).dropLast) = false) :
    sliceOutput true (some h) (some f) c
        (pre ++ (c ++ (mid ++ (h ++ (between ++ (f ++ post)))))) =
      .ok (h ++ '\n' :: (between ++ '\n' :: f)) := by
  have e1 : splitFirst c (pre ++ (c ++ (mid ++ (h ++ (between ++ (f ++ post)))))) =
      some (pre, mid ++ (h ++ (between ++ (f ++ post)))) :=
    splitFirst_append c hc pre _ h1
  have e2 : splitFirst h (mid ++ (h ++ (between ++ (f ++ post)))) =
      some (mid, between ++ (f ++ post)) :=
    splitFirst_append h hh mid _ h2
  have e3 : splitFirst f (between ++ (f ++ post)) = some (between, post) :=
    splitFirst_append f hf between _ h3
  simp [sliceOutput, hh, hf, e1, e2, e3]

/-- C3, witness: a realistic transcript with banner text before the echoed
command line and a quit banner after the footer slices to the marked
region. -/
theorem c3_demarcation_witness :
    sliceOutput true (some (pys "== Start Calling kcn =="))
        (some (pys "== End Calling kcn ==")) (pys ".symopt+0x10;.ecxr;kcn;q")
        (pys "Microsoft Windows Debugger\n" ++ (pys ".symopt+0x10;.ecxr;kcn;q" ++
          (pys "\n" ++ (pys "== Start Calling kcn ==" ++
            (pys "\n00 TheCrasher!main+0x1b\n" ++
              (pys "== End Calling kcn ==" ++ pys "\nquit:")))))) =
      .ok (pys "== Start Calling kcn ==" ++
        '\n' :: (pys "\n00 TheCrasher!main+0x1b\n" ++
          '\n' :: pys "== End Calling kcn ==")) :=
  c3_demarcation (pys "Microsoft Windows Debugger\n") (pys ".symopt+0x10;.ecxr;kcn;q")
    (pys "\n") (pys "== Start Calling kcn ==") (pys "\n00 TheCrasher!main+0x1b\n")
    (pys "== End Calling kcn ==") (pys "\nquit:")
    (by decide) (by decide) (by decide) (by decide) (by decide) (by decide)

theorem pollLoop_none (rcAt : Nat → Option Int) :
    ∀ (n k : Nat), (∀ j, j < k + n → rcAt j = none) → pollLoop rcAt k n = none := by
  intro n
  induction n with
  | zero => intro k _; rfl
  | succ n ih =>
    intro k h
    have hk : rcAt k = none := h k (by omega)
    simp only [pollLoop, hk]
    exact ih (k + 1) fun j hj => h j (by omega)

/-- C7: if every poll the deadline allows still observes a running process
(no return code), the supervision loop times out, the invocation fails with
the RuntimeError of windbg.py line 125, and the result is the same whatever
the captured output holds — no output is read or parsed and nothing is
returned. -/
theorem c7_timeout (rcAt : Nat → Option Int) (k n : Nat) (out1 out2 : Option PyStr)
    (h : ∀ j, j < k + n → rcAt j = none) :
    pollLoop rcAt k n = none ∧
    runProcess (pollLoop rcAt k n) out1 = .error "RuntimeError: Timed out" ∧
    runProcess (pollLoop rcAt k n) out1 = runProcess (pollLoop rcAt k n) out2 := by
  have hp := pollLoop_none rcAt n k h
  exact ⟨hp, by rw [hp]; rfl, by rw [hp]; rfl⟩

/-- C7, witness: a process that never reports a return code within five
allowed polls times out, whatever was captured. -/
theorem c7_timeout_witness :
    pollLoop (fun _ => none) 0 5 = none ∧
    runProcess (pollLoop (fun _ => none) 0 5) (some (pys "captured text")) =
      .error "RuntimeError: Timed out" ∧
    runProcess (pollLoop (fun _ => none) 0 5) (some (pys "captured text")) =
      runProcess (pollLoop (fun _ => none) 0 5) none :=
  c7_timeout (fun _ => none) 0 5 (some (pys "captured text")) none fun _ _ => rfl

theorem wrapEcho_fst (g : Bool) :
    ∀ (l : List PyStr) (h f : Option PyStr),
      (wrapEcho g l h f).1 =
        l.flatMap fun dc =>
          if dc = qCmd then [echoStartCmd dc, dc]
          else [echoStartCmd dc, dc, echoEndCmd dc] := by
  intro l
  induction l with
  | nil => intro h f; rfl
  | cons dc rest ih =>
    intro h f
    by_cases hq : dc = qCmd
    · simp [wrapEcho, hq, ih]
    · simp [wrapEcho, hq, ih]

/-- C4: for every caller command list, the joined invocation string is the
`;`-concatenation of the assembled command list, whose command order is
`.symopt+0x10` first, then `.ecxr` (exactly when not suppressed), then the
caller commands, then `q` (exactly when the session should exit); the echo
wrapping used for demarcation only interleaves announcements around each of
these commands, preserving that order. -/
theorem c4_invocation (cs : List PyStr) (ctx ex : Bool) :
    invocationString cs ctx false ex =
      joinSemis (symoptCmd :: ((if ctx then [ecxrCmd] else []) ++
        (cs ++ (if ex then [qCmd] else [])))) ∧
    (buildCommandList cs ctx true ex).1 =
      (symoptCmd :: ((if ctx then [ecxrCmd] else []) ++
        (cs ++ (if ex then [qCmd] else [])))).flatMap
        (fun dc => if dc = qCmd then [echoStartCmd dc, dc]
                   else [echoStartCmd dc, dc, echoEndCmd dc]) ∧
    invocationString cs ctx true ex =
      joinSemis ((symoptCmd :: ((if ctx then [ecxrCmd] else []) ++
        (cs ++ (if ex then [qCmd] else [])))).flatMap
        (fun dc => if dc = qCmd then [echoStartCmd dc, dc]
                   else [echoStartCmd dc, dc, echoEndCmd dc])) := by
  refine ⟨?_, ?_, ?_⟩
  · cases ctx <;> cases ex <;> simp [invocationString, buildCommandList, joinSemis]
  · cases ctx <;> cases ex <;> simp [buildCommandList, wrapEcho_fst]
  · cases ctx <;> cases ex <;> simp [invocationString, buildCommandList, wrapEcho_fst]

/-- C8, counterexample: the compact-trace scan for index 0 encounters the
unwind notice before the frame line (so the claim demands a true warning
flag), but the assembled frame's `warningAboutCorrectness` is false because
line 256 of windbg.py overwrites the flag with the extended-trace scan's. -/
theorem c8_counterexample :
    getStackTrace c8T = .ok c8Stack ∧
    (getLineAndWarning 0 c8T.clean).map Prod.snd = some true ∧
    c8Stack.frames.map Frame.warningAboutCorrectness = [false] := by
  refine ⟨by decide, by decide, by decide⟩

theorem buildFrames_spec (t : Transcripts) :
    ∀ (fuel idx : Nat) (l : List Frame), buildFrames t idx fuel = .ok l →
      l.length ≤ fuel ∧
      (∀ j (hj : j < l.length),
        (l.get ⟨j, hj⟩).index = idx + j ∧
        (getLineAndWarning (idx + j) t.clean).isSome = true ∧
        (l.get ⟨j, hj⟩).warningAboutCorrectness =
          warningOfScan (getLineAndWarning (idx + j) t.extended)) ∧
      (l.length < fuel → getLineAndWarning (idx + l.length) t.clean = none) := by
  intro fuel
  induction fuel with
  | zero =>
    intro idx l hl
    simp only [buildFrames] at hl
    obtain rfl : ([] : List Frame) = l := by
      cases hl; rfl
    exact ⟨Nat.le_refl _, fun j hj => absurd hj (by simp), fun h => absurd h (by simp)⟩
  | succ fuel ih =>
    intro idx l hl
    simp only [buildFrames] at hl
    cases h0 : getLineAndWarning idx t.clean with
    | none =>
      rw [h0] at hl
      obtain rfl : ([] : List Frame) = l := by cases hl; rfl
      refine ⟨by simp, fun j hj => absurd hj (by simp), fun _ => ?_⟩
      simpa using h0
    | some sw =>
      obtain ⟨stackLine, w⟩ := sw
      simp only [h0] at hl
      cases h1 : (pyWhitespaceSplit stackLine).get? 1 with
      | none => simp only [h1] at hl; cases hl
      | some mf =>
        simp only [h1] at hl
        cases h2 : parseModuleFunction mf with
        | error e => simp only [h2] at hl; cases hl
        | ok mfn =>
          obtain ⟨m, fn⟩ := mfn
          simp only [h2] at hl
          cases h3 : getLineAndWarning idx t.extended with
          | none => simp only [h3] at hl; cases hl
          | some ew =>
            obtain ⟨extLine, warning⟩ := ew
            simp only [h3] at hl
            cases h4 : getVariablesForFrame (t.frameVars idx) with
            | error e => simp only [h4] at hl; cases hl
            | ok vars =>
              simp only [h4] at hl
              cases h5 : buildFrames t (idx + 1) fuel with
              | error e => simp only [h5] at hl; cases hl
              | ok rest =>
                simp only [h5] at hl
                obtain ⟨hlen, hall, hend⟩ := ih (idx + 1) rest h5
                set sfl : Option PyStr × Option PyStr :=
                  match matchFileLine extLine with
                  | some (sf, ln) => (some sf, some ln)
                  | none => (none, none) with hsfl
                obtain rfl :
                    (⟨m, idx, fn, sfl.1, sfl.2, vars, warning⟩ : Frame) :: rest = l := by
                  cases hl; rfl
                refine ⟨by simpa using Nat.succ_le_succ hlen, ?_, ?_⟩
                · intro j hj
                  cases j with
                  | zero =>
                    refine ⟨by simp, ?_, ?_⟩
                    · rw [Nat.add_zero, h0]; rfl
                    · show warning = warningOfScan (getLineAndWarning (idx + 0) t.extended)
                      rw [Nat.add_zero, h3]
                      rfl
                  | succ j =>
                    have hj' : j < rest.length := by simpa using hj
                    obtain ⟨hidx, hsome, hwarn⟩ := hall j hj'
                    refine ⟨?_, ?_, ?_⟩
                    · show (rest.get ⟨j, hj'⟩).index = idx + (j + 1)
                      rw [hidx]; omega
                    · rw [show idx + (j + 1) = (idx + 1) + j by omega]; exact hsome
                    · show (rest.get ⟨j, hj'⟩).warningAboutCorrectness = _
                      rw [hwarn, show idx + (j + 1) = (idx + 1) + j by omega]
                · intro hlt
                  have hrl : rest.length < fuel := by simpa using hlt
                  have hnone := hend hrl
                  have harith : idx + (rest.length + 1) = (idx + 1) + rest.length := by
                    omega
                  rw [List.length_cons, harith]
                  exact hnone

theorem getStackTrace_ok (t : Transcripts) (s : Stack)
    (hs : getStackTrace t = .ok s) :
    buildFrames t 0 MAX_STACK_DEPTH = .ok s.frames := by
  cases hb : buildFrames t 0 MAX_STACK_DEPTH with
  | error e => simp only [getStackTrace, hb] at hs; cases hs
  | ok frames =>
    cases ht : getThreadId t.thread with
    | error e => simp only [getStackTrace, hb, ht] at hs; cases hs
    | ok tid =>
      simp only [getStackTrace, hb, ht] at hs
      cases hs
      rfl

/-- C5: a successfully assembled stack never has more than 100 frames; the
frame indices are contiguous starting at 0, every assembled index has a
matching compact-trace line, and when fewer than 100 frames were assembled
the first unassembled index has no matching compact-trace line — no frame is
fabricated for an index without one. -/
theorem c5_stack_invariants (t : Transcripts) (s : Stack)
    (hs : getStackTrace t = .ok s) :
    s.frames.length ≤ 100 ∧
    (∀ j (hj : j < s.frames.length),
      (s.frames.get ⟨j, hj⟩).index = j ∧
      (getLineAndWarning j t.clean).isSome = true) ∧
    (s.frames.length < 100 → getLineAndWarning s.frames.length t.clean = none) := by
  have hb := getStackTrace_ok t s hs
  obtain ⟨h1, h2, h3⟩ := buildFrames_spec t MAX_STACK_DEPTH 0 s.frames hb
  refine ⟨h1, fun j hj => ?_, fun hlt => ?_⟩
  · obtain ⟨ha, hsome, _⟩ := h2 j hj
    rw [Nat.zero_add] at ha hsome
    exact ⟨ha, hsome⟩
  · have h4 := h3 hlt
    rwa [Nat.zero_add] at h4

/-- C5, witness: the invariants hold of the concrete one-frame stack. -/
theorem c5_stack_invariants_witness :
    c5Stack.frames.length ≤ 100 ∧
    (c5Stack.frames.get ⟨0, by decide⟩).index = 0 ∧
    getLineAndWarning c5Stack.frames.length c5T.clean = none := by
  have h : getStackTrace c5T = .ok c5Stack := by decide
  have H := c5_stack_invariants c5T c5Stack h
  exact ⟨H.1, (H.2.1 0 (by decide)).1, H.2.2 (by decide)⟩

/-- C8, amended: for every assembled frame, `warningAboutCorrectness` is
exactly the flag of the extended-trace scan for that index (line 256 of
windbg.py overwrites the compact-scan flag with the extended one). -/
theorem c8_warning_from_extended (t : Transcripts) (s : Stack)
    (hs : getStackTrace t = .ok s) :
    ∀ j (hj : j < s.frames.length),
      (s.frames.get ⟨j, hj⟩).warningAboutCorrectness =
        warningOfScan (getLineAndWarning j t.extended) := by
  intro j hj
  have hb := getStackTrace_ok t s hs
  obtain ⟨_, h2, _⟩ := buildFrames_spec t MAX_STACK_DEPTH 0 s.frames hb
  have hw := (h2 j hj).2.2
  rwa [Nat.zero_add] at hw

/-- C8, witness for the amended theorem: on `c8T` the frame's flag equals the
extended-trace scan's flag (false), even though the compact scan flagged. -/
theorem c8_warning_from_extended_witness :
    (c8Stack.frames.get ⟨0, by decide⟩).warningAboutCorrectness =
      warningOfScan (getLineAndWarning 0 c8T.extended) := by
  have h : getStackTrace c8T = .ok c8Stack := by decide
  exact c8_warning_from_extended c8T c8Stack h 0 (by decide)

theorem splitChar_length (c : Char) :
    ∀ s : PyStr, (splitChar c s).length = countChar c s + 1 := by
  intro s
  induction s with
  | nil => rfl
  | cons x rest ih =>
    by_cases hx : x = c
    · simp [splitChar, countChar, hx]; omega
    · cases hsp : splitChar c rest with
      | nil => rw [hsp] at ih; simp at ih
      | cons hh tt =>
        rw [hsp] at ih
        simp only [splitChar, if_neg hx, hsp, countChar, List.length_cons] at ih ⊢
        omega

theorem containsChar_of_count_pos (c : Char) :
    ∀ s : PyStr, 1 ≤ countChar c s → containsChar c s = true := by
  intro s
  induction s with
  | nil => intro h; simp [countChar] at h
  | cons x rest ih =>
    intro h
    by_cases hx : x = c
    · simp [containsChar, hx]
    · simp only [containsChar, if_neg hx]
      apply ih
      simpa [countChar, hx] using h

theorem parseModuleFunction_error (mf : PyStr) (h2 : 2 ≤ countChar '!' mf) :
    parseModuleFunction mf = .error "ValueError" := by
  have hcon : containsChar '!' mf = true :=
    containsChar_of_count_pos '!' mf (by omega)
  have hlen : (splitChar '!' mf).length = countChar '!' mf + 1 :=
    splitChar_length '!' mf
  simp only [parseModuleFunction, hcon, if_true]
  cases hsp : splitChar '!' mf with
  | nil => rw [hsp] at hlen
  | cons p1 t1 =>
    cases t1 with
    | nil => rfl
    | cons p2 t2 =>
      cases t2 with
      | nil =>
        exfalso
        rw [hsp] at hlen
        simp at hlen
        omega
      | cons p3 t3 => rfl

theorem buildFrames_error_of_bang (t : Transcripts) (idx fuel : Nat) (L : PyStr)
    (w : Bool) (mf : PyStr) (hfuel : 0 < fuel)
    (h0 : getLineAndWarning idx t.clean = some (L, w))
    (h1 : (pyWhitespaceSplit L).get? 1 = some mf)
    (h2 : 2 ≤ countChar '!' mf) :
    buildFrames t idx fuel = .error "ValueError" := by
  obtain ⟨fuel', rfl⟩ : ∃ g, fuel = g + 1 := ⟨fuel - 1, by omega⟩
  have hpm := parseModuleFunction_error mf h2
  simp only [buildFrames, h0, h1, hpm]

/-- C10: when the compact-trace line for index 0 has a second whitespace
token containing two or more `!` characters, the two-way `module!function`
destructuring fails, so `getStackTrace` raises ValueError instead of
constructing a frame. -/
theorem c10_multiple_bangs (t : Transcripts) (L : PyStr) (w : Bool) (mf : PyStr)
    (h0 : getLineAndWarning 0 t.clean = some (L, w))
    (h1 : (pyWhitespaceSplit L).get? 1 = some mf)
    (h2 : 2 ≤ countChar '!' mf) :
    getStackTrace t = .error "ValueError" := by
  have hb := buildFrames_error_of_bang t 0 MAX_STACK_DEPTH L w mf (by decide) h0 h1 h2
  simp only [getStackTrace, hb]

/-- C10, witness: the concrete transcript with the token
`module!namespace!function` makes `getStackTrace` raise ValueError. -/
theorem c10_multiple_bangs_witness : getStackTrace c10T = .error "ValueError" :=
  c10_multiple_bangs c10T (pys "00 module!namespace!function") false
    (pys "module!namespace!function") (by decide) (by decide) (by decide)

/-- C9: thread-id extraction takes the first transcript line containing
`Id`, takes the sub-field after the first `.` following `Id` up to the next
whitespace, and parses it as base-16; on the thread-status line
`.  0  Id: 97cc.e00 Suspend: 0 ...` it returns 0xE00 = 3584, both on the
bare line and inside the full demarcated transcript. -/
theorem c9_thread_id :
    getThreadId c9Thread = .ok (some 3584) ∧
    getThreadId (pys ".  0  Id: 97cc.e00 Suspend: 0 ...") = .ok (some 3584) ∧
    (3584 : Int) = (0xE00 : Int) := by
  refine ⟨by decide, by decide, by decide⟩

end PyDump
